import Mathlib

/-!
Shallow embedding of the blog server's content service
(src/src/supabase/functions/server/index.tsx) over the key-value store
contract described in the spec (the kv_store implementation itself is not
part of the sources, only its call sites are).

Modelling choices:
 * strings are `List Char` (`Str`);
 * JSON string-typed request fields are `JVal` (absent / null / string),
   so that JS falsiness (`!x`, `x || y`), nullish coalescing (`x ?? y`)
   and the `x !== undefined` sentinel test are all expressible;
 * timestamps are `Nat` (ISO-8601 strings compare the same way as the
   instants they denote); `new Date()` becomes an explicit `now` argument;
 * `crypto.randomUUID()` becomes an explicit fresh-id argument;
 * the external identity provider (`supabase.auth.getUser`) becomes an
   explicit `resolve` function argument of `verifyAuth`;
 * every route handler takes the current store and returns its outcome
   paired with the store afterwards; error paths return the store
   untouched, exactly as the early returns in the source do.
-/

namespace Blog

/-- Text, modelled as a list of characters. -/
abbrev Str := List Char

/-- A JSON string-typed field of a request body after destructuring:
absent (JS `undefined`), JSON `null`, or a string. -/
inductive JVal where
  | undef
  | jnull
  | jstr (s : Str)
deriving DecidableEq

/-- JS falsiness for a string-typed value: `undefined`, `null` and the
empty string are falsy. -/
def JVal.falsy : JVal → Bool
  | .undef => true
  | .jnull => true
  | .jstr s => s.isEmpty

/-- The string carried by the value, or the default `d` when there is
none (the handlers only use this after a falsiness check). -/
def JVal.strOr (v : JVal) (d : Str) : Str :=
  match v with
  | .jstr s => s
  | _ => d

/-- JS nullish coalescing `v ?? old` for a string-typed field: `undefined`
and `null` keep the old value, any string (even empty) replaces it. -/
def JVal.nullishOr (v : JVal) (old : Str) : Str :=
  match v with
  | .jstr s => s
  | _ => old

/-- JS `v !== undefined ? v : old` for a nullable field: an explicit
`null` or string overwrites, an absent field keeps the old value. -/
def JVal.undefOr (v : JVal) (old : Option Str) : Option Str :=
  match v with
  | .undef => old
  | .jnull => none
  | .jstr s => some s

/-- JS `v || null` used at article creation for the media fields: falsy
values (absent, null, empty string) normalise to `null`. -/
def JVal.orNull : JVal → Option Str
  | .jstr s => if s.isEmpty then none else some s
  | _ => none

/-- An article record as built by the create/update handlers
(index.tsx lines 128-139, 167-176). -/
structure Article where
  id : Str
  title : Str
  content : Str
  excerpt : Str
  imageUrl : Option Str
  videoUrl : Option Str
  audioUrl : Option Str
  authorId : Str
  createdAt : Nat
  updatedAt : Nat
deriving DecidableEq, Inhabited

/-- A comment record as built by the create-comment handler
(index.tsx lines 255-261). -/
structure Comment where
  id : Str
  articleId : Str
  name : Str
  content : Str
  createdAt : Nat
deriving DecidableEq, Inhabited

/-- A value stored in the key-value store: both key families share one
namespace, so a stored value is an article or a comment record. -/
inductive Val where
  | art (a : Article)
  | com (c : Comment)
deriving DecidableEq, Inhabited

/-- Dynamic `createdAt` access used by the two sort comparators. -/
def Val.createdAt : Val → Nat
  | .art a => a.createdAt
  | .com c => c.createdAt

/-- Modelled from the spec: the key-value store (kv_store, not under the
sources) is a mapping from string keys to values; we represent it as an
association list whose entry order stands for the store's unspecified
scan order. -/
abbrev Store := List (Str × Val)

/-- Modelled from the spec: `get(key) -> value | absent`. -/
def kvGet (s : Store) (k : Str) : Option Val :=
  (s.find? (fun e => e.1 = k)).map (·.2)

/-- Modelled from the spec: `delete(key)`, idempotent. -/
def kvDel (s : Store) (k : Str) : Store :=
  s.filter (fun e => ¬ e.1 = k)

/-- Modelled from the spec: `set(key, value)` replaces any previous
binding of the key. -/
def kvSet (s : Store) (k : Str) (v : Val) : Store :=
  (k, v) :: kvDel s k

/-- Modelled from the spec: `deleteMany(keys)`, one batch call. -/
def kvMdel (s : Store) (ks : List Str) : Store :=
  s.filter (fun e => ¬ e.1 ∈ ks)

/-- Modelled from the spec: `scanByPrefix(p)` returns all pairs whose key
starts with `p`, in an order the store does not specify (here: entry
order, which the theorems quantify over). -/
def kvScan (s : Store) (p : Str) : List (Str × Val) :=
  s.filter (fun e => p.isPrefixOf e.1)

/-- Article key `article:<id>` (index.tsx line 141 etc.). -/
def artKey (id : Str) : Str := "article:".toList ++ id

/-- Comment-scan key `comment:<articleId>:` (index.tsx lines 205, 224). -/
def comPfx (aid : Str) : Str := "comment:".toList ++ aid ++ [':']

/-- Comment key `comment:<articleId>:<commentId>` (index.tsx line 263). -/
def comKey (aid cid : Str) : Str := comPfx aid ++ cid

/-- Outcomes of the handlers' early-return error paths. -/
inductive Err where
  | unauthorized
  | invalid
  | notFound
deriving DecidableEq

/-- `verifyAuth` (index.tsx lines 67-75): take the word after the first
blank of the Authorization header, reject a missing or empty token, and
hand the rest to the external identity provider `resolve`. -/
def verifyAuth (authHeader : Option Str) (resolve : Str → Option Str) :
    Option Str :=
  match authHeader with
  | none => none
  | some h =>
    match (h.splitOn ' ')[1]? with
    | none => none
    | some tok => if tok.isEmpty then none else resolve tok

/-- Request body of the create/update article handlers (line 121 / 165). -/
structure ArticleReq where
  title : JVal
  content : JVal
  excerpt : JVal
  imageUrl : JVal
  videoUrl : JVal
  audioUrl : JVal
deriving DecidableEq

/-- Request body of the create-comment handler (line 242). -/
structure CommentReq where
  name : JVal
  content : JVal
deriving DecidableEq

/-- POST /articles (index.tsx lines 114-148). `auth` is the result of
`verifyAuth`, `newId` stands for `crypto.randomUUID()`, `now` for
`new Date()`. -/
def createArticle (s : Store) (auth : Option Str) (req : ArticleReq)
    (newId : Str) (now : Nat) : Except Err Article × Store :=
  match auth with
  | none => (.error .unauthorized, s)
  | some userId =>
    if req.title.falsy || req.content.falsy then
      (.error .invalid, s)
    else
      let content := req.content.strOr []
      let article : Article :=
        { id := newId
          title := req.title.strOr []
          content := content
          excerpt :=
            if req.excerpt.falsy then content.take 150 ++ "...".toList
            else req.excerpt.strOr []
          imageUrl := req.imageUrl.orNull
          videoUrl := req.videoUrl.orNull
          audioUrl := req.audioUrl.orNull
          authorId := userId
          createdAt := now
          updatedAt := now }
      (.ok article, kvSet s (artKey newId) (.art article))

/-- PUT /articles/:id (index.tsx lines 151-185). The branch for a comment
record found under an `article:` key is unreachable (only `Val.art`
values are ever stored under such keys) and is mapped to Not-Found. -/
def updateArticle (s : Store) (auth : Option Str) (aid : Str)
    (req : ArticleReq) (now : Nat) : Except Err Article × Store :=
  match auth with
  | none => (.error .unauthorized, s)
  | some _ =>
    match kvGet s (artKey aid) with
    | none => (.error .notFound, s)
    | some (.com _) => (.error .notFound, s)
    | some (.art old) =>
      let upd : Article :=
        { old with
          title := req.title.nullishOr old.title
          content := req.content.nullishOr old.content
          excerpt := req.excerpt.nullishOr old.excerpt
          imageUrl := req.imageUrl.undefOr old.imageUrl
          videoUrl := req.videoUrl.undefOr old.videoUrl
          audioUrl := req.audioUrl.undefOr old.audioUrl
          updatedAt := now }
      (.ok upd, kvSet s (artKey aid) (.art upd))

/-- DELETE /articles/:id (index.tsx lines 188-216): delete the article
key first, then scan `comment:<id>:` and delete the collected comment
keys in one batch call (guarded, as in the source, by the list being
non-empty). -/
def deleteArticle (s : Store) (auth : Option Str) (aid : Str) :
    Except Err Unit × Store :=
  match auth with
  | none => (.error .unauthorized, s)
  | some _ =>
    match kvGet s (artKey aid) with
    | none => (.error .notFound, s)
    | some _ =>
      let s1 := kvDel s (artKey aid)
      let commentKeys := (kvScan s1 (comPfx aid)).map (·.1)
      let s2 := if commentKeys.length > 0 then kvMdel s1 commentKeys else s1
      (.ok (), s2)

/-- The article comparator of index.tsx line 87: `a` may precede `b`
when `b.createdAt` does not exceed `a.createdAt` (newest first). -/
def artCmp (a b : Val) : Bool := b.createdAt ≤ a.createdAt

/-- The comment comparator of index.tsx line 229: oldest first. -/
def comCmp (a b : Val) : Bool := a.createdAt ≤ b.createdAt

/-- GET /articles (index.tsx lines 80-94): scan `article:`, extract the
values, sort by `createdAt`, newest first. -/
def listArticles (s : Store) : List Val :=
  ((kvScan s "article:".toList).map Prod.snd).mergeSort artCmp

/-- GET /comments/:articleId (index.tsx lines 221-236): scan
`comment:<articleId>:`, extract the values, sort by `createdAt`, oldest
first. -/
def listComments (s : Store) (aid : Str) : List Val :=
  ((kvScan s (comPfx aid)).map Prod.snd).mergeSort comCmp

/-- POST /comments/:articleId (index.tsx lines 239-270): validate
`name`/`content` first, then check the target article exists, then store
the comment under `comment:<articleId>:<commentId>`. -/
def createComment (s : Store) (aid : Str) (req : CommentReq)
    (newId : Str) (now : Nat) : Except Err Comment × Store :=
  if req.name.falsy || req.content.falsy then
    (.error .invalid, s)
  else
    match kvGet s (artKey aid) with
    | none => (.error .notFound, s)
    | some _ =>
      let c : Comment :=
        { id := newId
          articleId := aid
          name := req.name.strOr []
          content := req.content.strOr []
          createdAt := now }
      (.ok c, kvSet s (comKey aid newId) (.com c))

/-- DELETE /comments/:articleId/:commentId (index.tsx lines 273-295). -/
def deleteComment (s : Store) (auth : Option Str) (aid cid : Str) :
    Except Err Unit × Store :=
  match auth with
  | none => (.error .unauthorized, s)
  | some _ =>
    match kvGet s (comKey aid cid) with
    | none => (.error .notFound, s)
    | some _ => (.ok (), kvDel s (comKey aid cid))

/-- A concrete article used by the concrete evaluations below. -/
def sampleArticle : Article :=
  { id := ['x'], title := ['t'], content := ['c'], excerpt := ['e'],
    imageUrl := none, videoUrl := none, audioUrl := none,
    authorId := ['u'], createdAt := 0, updatedAt := 0 }

/-- A request body with every field absent. -/
def emptyReq : ArticleReq :=
  { title := .undef, content := .undef, excerpt := .undef,
    imageUrl := .undef, videoUrl := .undef, audioUrl := .undef }

/-- `sampleArticle` after a title-only update at time 1. -/
def retitledArticle : Article :=
  { sampleArticle with title := ['T'], updatedAt := 1 }

/-- `sampleArticle` after a media-URL update at time 1. -/
def remediaArticle : Article :=
  { sampleArticle with videoUrl := some [], updatedAt := 1 }

/-- `sampleArticle` after a no-field update at time 1. -/
def retouchedArticle : Article :=
  { sampleArticle with updatedAt := 1 }

/-- An article with id `a`, created at time 0. -/
def articleA : Article := { sampleArticle with id := ['a'] }

/-- An article with id `b`, created later, at time 5. -/
def articleB : Article :=
  { sampleArticle with id := ['b'], createdAt := 5, updatedAt := 5 }

/-- A concrete comment on `sampleArticle`. -/
def sampleComment : Comment :=
  { id := ['c'], articleId := ['x'], name := ['n'], content := ['m'],
    createdAt := 0 }

/-- A concrete comment on `sampleArticle`, created at time 3. -/
def lateComment : Comment :=
  { id := ['c'], articleId := ['x'], name := ['n'], content := ['m'],
    createdAt := 3 }

/-! ## Store lemmas -/

theorem kvGet_eq_none_iff {s : Store} {k : Str} :
    kvGet s k = none ↔ ∀ e ∈ s, e.1 ≠ k := by
  simp [kvGet, List.find?_eq_none]

theorem kvGet_filter_none {s : Store} {k : Str} (q : Str × Val → Bool)
    (h : kvGet s k = none) : kvGet (s.filter q) k = none := by
  rw [kvGet_eq_none_iff] at h ⊢
  exact fun e he => h e (List.mem_filter.mp he).1

theorem kvGet_del_self (s : Store) (k : Str) : kvGet (kvDel s k) k = none := by
  rw [kvGet_eq_none_iff]
  intro e he
  have := (List.mem_filter.mp he).2
  simpa using this

theorem kvGet_set_self (s : Store) (k : Str) (v : Val) :
    kvGet (kvSet s k v) k = some v := by
  simp [kvGet, kvSet]

theorem mem_kvScan {s : Store} {p : Str} {e : Str × Val} :
    e ∈ kvScan s p ↔ e ∈ s ∧ p.isPrefixOf e.1 = true := by
  simp [kvScan, List.mem_filter]

/-! ## C2: derived excerpt at creation -/

/-- C2: a create-article request by a resolved caller with non-falsy title
and content, no excerpt supplied, and content at least 150 characters
long, stores an article whose excerpt is exactly the first 150 characters
of the content followed by the `"..."` marker. -/
theorem c2_excerpt_derivation (s : Store) (u : Str) (req : ArticleReq)
    (id : Str) (now : Nat) (a : Article) (s' : Store)
    (hex : req.excerpt = .undef)
    (hok : createArticle s (some u) req id now = (.ok a, s'))
    (hlen : 150 ≤ (req.content.strOr []).length) :
    a.excerpt = (req.content.strOr []).take 150 ++ "...".toList
    ∧ ((req.content.strOr []).take 150).length = 150
    ∧ kvGet s' (artKey id) = some (.art a) := by
  by_cases hval : (req.title.falsy || req.content.falsy) = true
  · simp [createArticle, hval] at hok
  · simp only [createArticle, hval, Bool.not_eq_true, Bool.false_eq_true,
      if_false, Prod.mk.injEq, Except.ok.injEq] at hok
    obtain ⟨ha, hs⟩ := hok
    subst hs
    subst ha
    refine ⟨?_, ?_, ?_⟩
    · simp [hex, JVal.falsy]
    · simp [List.length_take]
      omega
    · rw [kvGet_set_self]

/-! ## C3: title-only update frame -/

/-- C3: an update by a resolved caller that supplies only a title leaves
content, excerpt, the three media URLs, createdAt, authorId and id
unchanged, installs the new title, and moves updatedAt strictly forward
(given that the clock has advanced past the old updatedAt). -/
theorem c3_title_only_update (s : Store) (u aid t : Str) (now : Nat)
    (old upd : Article) (s' : Store)
    (hget : kvGet s (artKey aid) = some (.art old))
    (hclock : old.updatedAt < now)
    (hok : updateArticle s (some u) aid
      { title := .jstr t, content := .undef, excerpt := .undef,
        imageUrl := .undef, videoUrl := .undef, audioUrl := .undef }
      now = (.ok upd, s')) :
    upd.title = t
    ∧ upd.content = old.content ∧ upd.excerpt = old.excerpt
    ∧ upd.imageUrl = old.imageUrl ∧ upd.videoUrl = old.videoUrl
    ∧ upd.audioUrl = old.audioUrl
    ∧ upd.createdAt = old.createdAt ∧ upd.authorId = old.authorId
    ∧ upd.id = old.id
    ∧ old.updatedAt < upd.updatedAt
    ∧ kvGet s' (artKey aid) = some (.art upd) := by
  unfold updateArticle at hok
  rw [hget] at hok
  obtain ⟨ha, hs⟩ := Prod.mk.injEq .. ▸ hok
  injection ha with ha
  subst hs
  rw [← ha]
  refine ⟨rfl, rfl, rfl, rfl, rfl, rfl, rfl, rfl, rfl, hclock, ?_⟩
  rw [kvGet_set_self]

/-! ## C4: media URL update semantics -/

/-- C4: in an update on an existing article, each of the three media URL
fields is retained when absent from the request, and overwritten when
explicitly supplied as null or as the empty string. -/
theorem c4_media_url_semantics (s : Store) (u aid : Str)
    (req : ArticleReq) (now : Nat) (old upd : Article) (s' : Store)
    (hget : kvGet s (artKey aid) = some (.art old))
    (hok : updateArticle s (some u) aid req now = (.ok upd, s')) :
    (req.imageUrl = .undef → upd.imageUrl = old.imageUrl)
    ∧ (req.imageUrl = .jnull → upd.imageUrl = none)
    ∧ (req.imageUrl = .jstr [] → upd.imageUrl = some [])
    ∧ (req.videoUrl = .undef → upd.videoUrl = old.videoUrl)
    ∧ (req.videoUrl = .jnull → upd.videoUrl = none)
    ∧ (req.videoUrl = .jstr [] → upd.videoUrl = some [])
    ∧ (req.audioUrl = .undef → upd.audioUrl = old.audioUrl)
    ∧ (req.audioUrl = .jnull → upd.audioUrl = none)
    ∧ (req.audioUrl = .jstr [] → upd.audioUrl = some []) := by
  unfold updateArticle at hok
  rw [hget] at hok
  obtain ⟨ha, hs⟩ := Prod.mk.injEq .. ▸ hok
  injection ha with ha
  rw [← ha]
  refine ⟨?_, ?_, ?_, ?_, ?_, ?_, ?_, ?_, ?_⟩ <;>
    (intro h; simp [h, JVal.undefOr])

/-! ## C1: non-empty title and content -/

theorem JVal.strOr_ne_nil {v : JVal} (h : v.falsy = false) :
    v.strOr [] ≠ [] := by
  cases v with
  | undef => simp [JVal.falsy] at h
  | jnull => simp [JVal.falsy] at h
  | jstr s =>
    simp [JVal.falsy] at h
    simpa [JVal.strOr] using h

/-- C1 fails as stated: an update-article request that explicitly supplies
an empty-string title passes the `??` coalescing untouched, so the store
afterwards holds an article whose title is the empty string. -/
theorem c1_counterexample :
    kvGet
      ((updateArticle [(artKey ['x'], .art sampleArticle)] (some ['u']) ['x']
        { emptyReq with title := .jstr [] } 1).2)
      (artKey ['x'])
    = some (.art { sampleArticle with title := [], updatedAt := 1 }) := by
  decide

/-- C1 (amended): every article stored by create-article has non-empty
title and content; update-article preserves non-emptiness provided the
request does not explicitly supply an empty-string title or content (an
explicit empty string is stored as is). -/
theorem c1_nonempty_amended :
    (∀ (s : Store) (auth : Option Str) (req : ArticleReq) (id : Str)
        (now : Nat) (a : Article) (s' : Store),
      createArticle s auth req id now = (.ok a, s') →
      a.title ≠ [] ∧ a.content ≠ [] ∧ kvGet s' (artKey id) = some (.art a))
    ∧ (∀ (s : Store) (u aid : Str) (req : ArticleReq) (now : Nat)
        (old upd : Article) (s' : Store),
      kvGet s (artKey aid) = some (.art old) →
      old.title ≠ [] → old.content ≠ [] →
      req.title ≠ .jstr [] → req.content ≠ .jstr [] →
      updateArticle s (some u) aid req now = (.ok upd, s') →
      upd.title ≠ [] ∧ upd.content ≠ []) := by
  constructor
  · intro s auth req id now a s' hok
    cases auth with
    | none => simp [createArticle] at hok
    | some u =>
      by_cases hval : (req.title.falsy || req.content.falsy) = true
      · simp [createArticle, hval] at hok
      · simp only [createArticle, hval, Bool.not_eq_true, Bool.false_eq_true,
          if_false, Prod.mk.injEq, Except.ok.injEq] at hok
        obtain ⟨ha, hs⟩ := hok
        subst hs
        subst ha
        simp only [Bool.not_eq_true, Bool.or_eq_false_iff] at hval
        exact ⟨JVal.strOr_ne_nil hval.1, JVal.strOr_ne_nil hval.2,
          kvGet_set_self ..⟩
  · intro s u aid req now old upd s' hget htitle hcontent hrt hrc hok
    unfold updateArticle at hok
    rw [hget] at hok
    obtain ⟨ha, hs⟩ := Prod.mk.injEq .. ▸ hok
    injection ha with ha
    rw [← ha]
    constructor
    · cases hv : req.title with
      | undef => simpa [JVal.nullishOr, hv] using htitle
      | jnull => simpa [JVal.nullishOr, hv] using htitle
      | jstr t =>
        simp only [JVal.nullishOr, hv]
        intro hh
        exact hrt (by rw [hv, hh])
    · cases hv : req.content with
      | undef => simpa [JVal.nullishOr, hv] using hcontent
      | jnull => simpa [JVal.nullishOr, hv] using hcontent
      | jstr t =>
        simp only [JVal.nullishOr, hv]
        intro hh
        exact hrc (by rw [hv, hh])

/-! ## C5: cascading delete -/

theorem kvGet_mdel_of_none {s : Store} {k : Str} (ks : List Str)
    (h : kvGet s k = none) : kvGet (kvMdel s ks) k = none := by
  unfold kvMdel
  exact kvGet_filter_none _ h

/-- After removing the article key and then the keys collected by the
comment-key scan (in one guarded batch call, as the source does), no key
with the comment scan marker is retrievable. -/
theorem scan_removed_get_none (s1 : Store) (p k : Str)
    (hpk : p.isPrefixOf k = true) :
    kvGet (if ((kvScan s1 p).map Prod.fst).length > 0
           then kvMdel s1 ((kvScan s1 p).map Prod.fst) else s1) k = none := by
  rw [kvGet_eq_none_iff]
  intro e he hek
  split at he
  · obtain ⟨hes1, hnot⟩ := List.mem_filter.mp he
    have hmem : e.1 ∈ (kvScan s1 p).map Prod.fst :=
      List.mem_map.mpr ⟨e, List.mem_filter.mpr ⟨hes1, by rw [hek]; exact hpk⟩, rfl⟩
    have hnot' : ¬ e.1 ∈ (kvScan s1 p).map Prod.fst := by
      simpa only [decide_eq_true_eq] using hnot
    exact hnot' hmem
  · rename_i hlen
    have hscan : kvScan s1 p = [] := by
      have hz : ((kvScan s1 p).map Prod.fst).length = 0 := by omega
      simpa using hz
    have hmem : e ∈ kvScan s1 p :=
      List.mem_filter.mpr ⟨he, by rw [hek]; exact hpk⟩
    rw [hscan] at hmem
    cases hmem

/-- A list-comments call on a store none of whose entries carries the
comment scan marker returns the empty list. -/
theorem listComments_of_purged (s2 : Store) (aid : Str)
    (h : ∀ e ∈ s2, (comPfx aid).isPrefixOf e.1 = true → False) :
    listComments s2 aid = [] := by
  have hnil : kvScan s2 (comPfx aid) = [] := by
    rw [kvScan, List.filter_eq_nil_iff]
    intro e he hp
    exact h e he hp
  unfold listComments
  rw [hnil]
  simp

/-- C5: a successful delete-article(X) leaves a store with no `article:X`
key and no key carrying the `comment:X:` scan marker, so a subsequent
list-comments for X returns the empty list — for any number of stored
comments, because every key the prefix scan collects is removed by the
single batch delete that follows the article-key delete. -/
theorem c5_delete_cascade (s : Store) (u aid : Str) (s' : Store)
    (hok : deleteArticle s (some u) aid = (.ok (), s')) :
    kvGet s' (artKey aid) = none
    ∧ (∀ k, (comPfx aid).isPrefixOf k = true → kvGet s' k = none)
    ∧ listComments s' aid = [] := by
  cases hget : kvGet s (artKey aid) with
  | none => simp [deleteArticle, hget] at hok
  | some v =>
    simp only [deleteArticle, hget, Prod.mk.injEq, true_and] at hok
    subst hok
    have hdel : kvGet (kvDel s (artKey aid)) (artKey aid) = none :=
      kvGet_del_self ..
    refine ⟨?_, ?_, ?_⟩
    · split
      · exact kvGet_mdel_of_none _ hdel
      · exact hdel
    · intro k hk
      exact scan_removed_get_none _ _ _ hk
    · refine listComments_of_purged _ _ ?_
      intro e he hp
      have hnone := scan_removed_get_none (kvDel s (artKey aid))
        (comPfx aid) e.1 hp
      rw [kvGet_eq_none_iff] at hnone
      exact hnone e he rfl

/-! ## C6: comment against a missing article -/

/-- C6 fails as stated: a create-comment request with a missing `name`
against a nonexistent article id signals Validation-Failed, not
Not-Found, because the field validation runs before the article-existence
check; the store is unchanged either way. -/
theorem c6_counterexample :
    (createComment [] ['a'] { name := .undef, content := .jstr ['c'] }
        ['i'] 0).1 = Except.error Err.invalid
    ∧ Err.invalid ≠ Err.notFound
    ∧ kvGet [] (artKey ['a']) = none
    ∧ (createComment [] ['a'] { name := .undef, content := .jstr ['c'] }
        ['i'] 0).2 = [] := by
  refine ⟨rfl, by decide, rfl, rfl⟩

/-- C6 (amended): a create-comment request with non-falsy name and content
against a nonexistent article id signals Not-Found and leaves the store
unchanged; with a missing or empty name or content it signals
Validation-Failed instead, and the store is also unchanged. -/
theorem c6_missing_article (s : Store) (aid : Str) (req : CommentReq)
    (id : Str) (now : Nat)
    (hget : kvGet s (artKey aid) = none) :
    (req.name.falsy = false → req.content.falsy = false →
      createComment s aid req id now = (.error .notFound, s))
    ∧ (req.name.falsy = true ∨ req.content.falsy = true →
      createComment s aid req id now = (.error .invalid, s)) := by
  constructor
  · intro hn hc
    simp [createComment, hn, hc, hget]
  · intro h
    have hval : (req.name.falsy || req.content.falsy) = true := by
      rcases h with h | h <;> simp [h]
    simp [createComment, hval]

/-! ## C7: unauthorized mutations -/

/-- C7: whenever the credential does not resolve to an identity (missing
header, header without a second word, empty token, or a token the
identity provider rejects — all the cases in which `verifyAuth` yields
none), each of create-article, update-article, delete-article and
delete-comment signals Unauthorized and returns the store unchanged,
while create-comment takes no identity at all and succeeds on a valid
request for an existing article. -/
theorem c7_unauthorized (resolve : Str → Option Str) (hdr : Option Str)
    (s : Store) (req : ArticleReq) (aid cid id : Str) (now : Nat)
    (hauth : verifyAuth hdr resolve = none) :
    createArticle s (verifyAuth hdr resolve) req id now
      = (.error .unauthorized, s)
    ∧ updateArticle s (verifyAuth hdr resolve) aid req now
      = (.error .unauthorized, s)
    ∧ deleteArticle s (verifyAuth hdr resolve) aid
      = (.error .unauthorized, s)
    ∧ deleteComment s (verifyAuth hdr resolve) aid cid
      = (.error .unauthorized, s)
    ∧ (∀ (creq : CommentReq) (v : Val),
        creq.name.falsy = false → creq.content.falsy = false →
        kvGet s (artKey aid) = some v →
        createComment s aid creq id now
          = (.ok { id := id, articleId := aid, name := creq.name.strOr [],
                   content := creq.content.strOr [], createdAt := now },
             kvSet s (comKey aid id)
               (.com { id := id, articleId := aid,
                       name := creq.name.strOr [],
                       content := creq.content.strOr [],
                       createdAt := now }))) := by
  rw [hauth]
  refine ⟨rfl, rfl, rfl, rfl, ?_⟩
  intro creq v hn hc hget
  simp [createComment, hn, hc, hget]

/-! ## C8 and C9: listing order -/

theorem artCmp_trans : ∀ a b c, artCmp a b = true → artCmp b c = true →
    artCmp a c = true := by
  intro a b c hab hbc
  simp only [artCmp, decide_eq_true_eq] at *
  omega

theorem artCmp_total : ∀ a b, (artCmp a b || artCmp b a) = true := by
  intro a b
  simp only [artCmp, Bool.or_eq_true, decide_eq_true_eq]
  omega

theorem comCmp_trans : ∀ a b c, comCmp a b = true → comCmp b c = true →
    comCmp a c = true := by
  intro a b c hab hbc
  simp only [comCmp, decide_eq_true_eq] at *
  omega

theorem comCmp_total : ∀ a b, (comCmp a b || comCmp b a) = true := by
  intro a b
  simp only [comCmp, Bool.or_eq_true, decide_eq_true_eq]
  omega

/-- In a pairwise-ordered list, an element not related forward to another
distinct element must appear after it: `[B, A]` is a sublist. -/
theorem pairwise_pair_sub {α : Type} {R : α → α → Prop} :
    ∀ {l : List α} {A B : α}, l.Pairwise R → A ∈ l → B ∈ l → A ≠ B →
      ¬ R A B → [B, A].Sublist l := by
  intro l
  induction l with
  | nil => intro A B _ hA _ _ _; cases hA
  | cons x t ih =>
    intro A B hp hA hB hne hnR
    obtain ⟨hx, ht⟩ := List.pairwise_cons.mp hp
    by_cases hBx : B = x
    · subst hBx
      have hAt : A ∈ t := by
        rcases List.mem_cons.mp hA with h | h
        · exact absurd h hne
        · exact h
      exact List.Sublist.cons₂ _ (List.singleton_sublist.mpr hAt)
    · have hBt : B ∈ t := by
        rcases List.mem_cons.mp hB with h | h
        · exact absurd h hBx
        · exact h
      have hAt : A ∈ t := by
        rcases List.mem_cons.mp hA with h | h
        · exact absurd (h ▸ hx B hBt) hnR
        · exact h
      exact List.Sublist.cons _ (ih ht hAt hBt hne hnR)

/-- The listing marker `article:` starts every article key. -/
theorem artKey_has_marker (id : Str) :
    ("article:".toList).isPrefixOf (artKey id) = true := by
  simp [artKey]

/-- C8: list-articles returns exactly the values stored under `article:`
keys (as a permutation of the scan), ordered by `createdAt` descending;
in particular, for stored articles A and B with `A.createdAt <
B.createdAt`, B appears before A in the output, whatever the scan order
of the store. -/
theorem c8_articles_newest_first (s : Store) :
    (listArticles s).Perm ((kvScan s "article:".toList).map Prod.snd)
    ∧ (listArticles s).Pairwise
        (fun a b => Val.createdAt b ≤ Val.createdAt a)
    ∧ ∀ (idA idB : Str) (A B : Article),
        (artKey idA, Val.art A) ∈ s → (artKey idB, Val.art B) ∈ s →
        A.createdAt < B.createdAt →
        [Val.art B, Val.art A].Sublist (listArticles s) := by
  have hpair : (listArticles s).Pairwise
      (fun a b => Val.createdAt b ≤ Val.createdAt a) := by
    have h := @List.sorted_mergeSort Val artCmp artCmp_trans artCmp_total
      ((kvScan s "article:".toList).map Prod.snd)
    exact h.imp (fun hab => by simpa [artCmp] using hab)
  refine ⟨List.mergeSort_perm _ _, hpair, ?_⟩
  intro idA idB A B hA hB hlt
  have hAmem : Val.art A ∈ listArticles s := by
    unfold listArticles
    rw [List.mem_mergeSort]
    exact List.mem_map.mpr
      ⟨(artKey idA, .art A), mem_kvScan.mpr ⟨hA, artKey_has_marker idA⟩, rfl⟩
  have hBmem : Val.art B ∈ listArticles s := by
    unfold listArticles
    rw [List.mem_mergeSort]
    exact List.mem_map.mpr
      ⟨(artKey idB, .art B), mem_kvScan.mpr ⟨hB, artKey_has_marker idB⟩, rfl⟩
  have hne : Val.art A ≠ Val.art B := by
    intro h
    injection h with h
    rw [h] at hlt
    omega
  have hnR : ¬ (Val.createdAt (Val.art B) ≤ Val.createdAt (Val.art A)) := by
    simp only [Val.createdAt]
    omega
  exact pairwise_pair_sub hpair hAmem hBmem hne hnR

/-- C9: list-comments for an article id returns exactly the values stored
under `comment:<articleId>:` keys (as a permutation of the scan), ordered
by `createdAt` ascending — oldest first, the inverse of the article
ordering. -/
theorem c9_comments_oldest_first (s : Store) (aid : Str) :
    (listComments s aid).Perm ((kvScan s (comPfx aid)).map Prod.snd)
    ∧ (listComments s aid).Pairwise
        (fun a b => Val.createdAt a ≤ Val.createdAt b) := by
  refine ⟨List.mergeSort_perm _ _, ?_⟩
  have h := @List.sorted_mergeSort Val comCmp comCmp_trans comCmp_total
    ((kvScan s (comPfx aid)).map Prod.snd)
  exact h.imp (fun hab => by simpa [comCmp] using hab)

/-! ## C10: comment records agree with their keys -/

/-- Two colon-free segments followed by a colon delimiter can only be
prefix-related when they are equal. -/
theorem colonfree_seg_eq : ∀ (X Y r1 r2 : Str), ':' ∉ X → ':' ∉ Y →
    (X ++ ':' :: r1) <+: (Y ++ ':' :: r2) → X = Y := by
  intro X
  induction X with
  | nil =>
    intro Y r1 r2 _ hY h
    cases Y with
    | nil => rfl
    | cons y t =>
      exfalso
      obtain ⟨r, hr⟩ := h
      simp only [List.nil_append, List.cons_append, List.cons.injEq] at hr
      apply hY
      rw [← hr.1]
      exact List.mem_cons_self ..
  | cons x X' ih =>
    intro Y r1 r2 hX hY h
    cases Y with
    | nil =>
      exfalso
      obtain ⟨r, hr⟩ := h
      simp only [List.nil_append, List.cons_append, List.cons.injEq] at hr
      apply hX
      rw [hr.1]
      exact List.mem_cons_self ..
    | cons y t =>
      obtain ⟨r, hr⟩ := h
      simp only [List.cons_append, List.cons.injEq] at hr
      obtain ⟨hxy, hrest⟩ := hr
      subst hxy
      have ht : X' = t := ih t r1 r2
        (fun hm => hX (List.mem_cons_of_mem _ hm))
        (fun hm => hY (List.mem_cons_of_mem _ hm)) ⟨r, hrest⟩
      rw [ht]

/-- C10: a stored comment is self-consistent with its composite key — the
record stored under `comment:<aid>:<cid>` carries `articleId = aid` and
`id = cid` — and consequently, in a store whose comment entries all sit
under their canonical keys with colon-free article ids (as UUID-keyed
stores are), a scan for `comment:<X>:` yields only comment records whose
`articleId` is X. -/
theorem c10_comment_key_consistency :
    (∀ (s : Store) (aid : Str) (req : CommentReq) (id : Str) (now : Nat)
        (c : Comment) (s' : Store),
      createComment s aid req id now = (.ok c, s') →
      kvGet s' (comKey aid id) = some (.com c)
      ∧ c.articleId = aid ∧ c.id = id)
    ∧ (∀ (s : Store) (X : Str), ':' ∉ X →
        (∀ e ∈ s, ∀ cm : Comment, e.2 = Val.com cm →
          e.1 = comKey cm.articleId cm.id ∧ ':' ∉ cm.articleId) →
        ∀ e ∈ kvScan s (comPfx X), ∀ cm : Comment, e.2 = Val.com cm →
          cm.articleId = X) := by
  constructor
  · intro s aid req id now c s' hok
    by_cases hval : (req.name.falsy || req.content.falsy) = true
    · simp [createComment, hval] at hok
    · simp only [createComment, hval, Bool.not_eq_true, Bool.false_eq_true,
        if_false, Prod.mk.injEq, Except.ok.injEq] at hok
      cases hget : kvGet s (artKey aid) with
      | none => rw [hget] at hok; simp at hok
      | some v =>
        rw [hget] at hok
        simp only [Prod.mk.injEq, Except.ok.injEq] at hok
        obtain ⟨hc, hs⟩ := hok
        subst hs
        subst hc
        exact ⟨kvGet_set_self .., rfl, rfl⟩
  · intro s X hXfree hinv e he cm hcm
    obtain ⟨hes, hp⟩ := mem_kvScan.mp he
    have hp2 : comPfx X <+: e.1 := by simpa using hp
    obtain ⟨hkey, hfree⟩ := hinv e hes cm hcm
    rw [hkey] at hp2
    have hp3 : ("comment:".toList ++ (X ++ ':' :: ([] : Str)))
        <+: ("comment:".toList ++ (cm.articleId ++ ':' :: cm.id)) := by
      simpa [comPfx, comKey, List.append_assoc] using hp2
    rw [List.prefix_append_right_inj] at hp3
    exact (colonfree_seg_eq X cm.articleId [] cm.id hXfree hfree hp3).symm

/-! ## Concrete witnesses -/

/-- Witness for C1 (amended) at a one-article store. -/
theorem c1_witness : (['t'] : Str) ≠ [] ∧ (['c'] : Str) ≠ [] :=
  let a1 : Article :=
    { id := ['i'], title := ['t'], content := ['c'],
      excerpt := ['c', '.', '.', '.'], imageUrl := none, videoUrl := none,
      audioUrl := none, authorId := ['u'], createdAt := 0, updatedAt := 0 }
  ⟨(c1_nonempty_amended.1 [] (some ['u'])
      { emptyReq with title := .jstr ['t'], content := .jstr ['c'] }
      ['i'] 0 a1 [(artKey ['i'], Val.art a1)] rfl).1,
   (c1_nonempty_amended.2 [(artKey ['x'], Val.art sampleArticle)] ['u'] ['x']
      emptyReq 1 sampleArticle retouchedArticle
      (kvSet [(artKey ['x'], Val.art sampleArticle)] (artKey ['x'])
        (Val.art retouchedArticle))
      (by decide) (by decide) (by decide) (by decide) (by decide) rfl).2⟩

set_option maxRecDepth 10000 in
/-- Witness for C2 at a 150-character content. -/
theorem c2_witness :
    (((JVal.jstr (List.replicate 150 'a')).strOr []).take 150).length
      = 150 :=
  let a2 : Article :=
    { id := ['i'], title := ['t'], content := List.replicate 150 'a',
      excerpt := List.replicate 150 'a' ++ "...".toList, imageUrl := none,
      videoUrl := none, audioUrl := none, authorId := ['u'], createdAt := 0,
      updatedAt := 0 }
  (c2_excerpt_derivation [] ['u']
    { emptyReq with title := .jstr ['t'], content := .jstr (List.replicate 150 'a') }
    ['i'] 0 a2 [(artKey ['i'], Val.art a2)] rfl rfl (by decide)).2.1

/-- Witness for C3: a concrete title-only update. -/
theorem c3_witness :
    retitledArticle.title = ['T']
    ∧ sampleArticle.updatedAt < retitledArticle.updatedAt :=
  let h := c3_title_only_update [(artKey ['x'], Val.art sampleArticle)]
    ['u'] ['x'] ['T'] 1 sampleArticle retitledArticle
    (kvSet [(artKey ['x'], Val.art sampleArticle)] (artKey ['x'])
      (Val.art retitledArticle))
    (by decide) (by decide) rfl
  ⟨h.1, h.2.2.2.2.2.2.2.2.2.1⟩

/-- Witness for C4: an update nulling the image, emptying the video and
omitting the audio URL. -/
theorem c4_witness :
    remediaArticle.imageUrl = none
    ∧ remediaArticle.videoUrl = some []
    ∧ remediaArticle.audioUrl = none :=
  let h := c4_media_url_semantics [(artKey ['x'], Val.art sampleArticle)]
    ['u'] ['x'] { emptyReq with imageUrl := .jnull, videoUrl := .jstr [] }
    1 sampleArticle remediaArticle
    (kvSet [(artKey ['x'], Val.art sampleArticle)] (artKey ['x'])
      (Val.art remediaArticle))
    (by decide) rfl
  ⟨h.2.1 rfl, h.2.2.2.2.2.1 rfl, h.2.2.2.2.2.2.1 rfl⟩

/-- Witness for C5: deleting an article with one stored comment empties
the store. -/
theorem c5_witness :
    kvGet ([] : Store) (artKey ['x']) = none
    ∧ kvGet ([] : Store) (comKey ['x'] ['c']) = none
    ∧ listComments [] ['x'] = [] :=
  let h := c5_delete_cascade
    [(artKey ['x'], Val.art sampleArticle),
     (comKey ['x'] ['c'], Val.com sampleComment)]
    ['u'] ['x'] [] rfl
  ⟨h.1, h.2.1 (comKey ['x'] ['c']) (by decide), h.2.2⟩

/-- Witness for C6 (amended): a valid comment against an empty store. -/
theorem c6_witness :
    createComment [] ['a'] { name := .jstr ['n'], content := .jstr ['m'] }
      ['i'] 0 = (.error .notFound, []) :=
  (c6_missing_article [] ['a'] { name := .jstr ['n'], content := .jstr ['m'] }
    ['i'] 0 rfl).1 rfl rfl

/-- Witness for C7: a missing Authorization header. -/
theorem c7_witness :
    createArticle [] (verifyAuth none (fun _ => none)) emptyReq ['i'] 0
      = (.error .unauthorized, [])
    ∧ deleteComment [] (verifyAuth none (fun _ => none)) ['a'] ['c']
      = (.error .unauthorized, []) :=
  let h := c7_unauthorized (fun _ => none) none [] emptyReq ['a'] ['c']
    ['i'] 0 rfl
  ⟨h.1, h.2.2.2.1⟩

/-- Witness for C8: the later-created of two stored articles is listed
before the earlier one. -/
theorem c8_witness :
    [Val.art articleB, Val.art articleA].Sublist
      (listArticles
        [(artKey ['a'], Val.art articleA), (artKey ['b'], Val.art articleB)]) :=
  (c8_articles_newest_first
    [(artKey ['a'], Val.art articleA), (artKey ['b'], Val.art articleB)]).2.2
    ['a'] ['b'] articleA articleB (by decide) (by decide) (by decide)

/-- Witness for C10: a freshly stored comment agrees with its key, and a
scan of a canonical one-comment store only returns its own article's
comments. -/
theorem c10_witness :
    kvGet
      (kvSet [(artKey ['x'], Val.art sampleArticle)] (comKey ['x'] ['c'])
        (Val.com lateComment))
      (comKey ['x'] ['c']) = some (Val.com lateComment)
    ∧ lateComment.articleId = ['x'] :=
  ⟨(c10_comment_key_consistency.1 [(artKey ['x'], Val.art sampleArticle)]
      ['x'] { name := .jstr ['n'], content := .jstr ['m'] } ['c'] 3
      lateComment
      (kvSet [(artKey ['x'], Val.art sampleArticle)] (comKey ['x'] ['c'])
        (Val.com lateComment)) rfl).1,
   c10_comment_key_consistency.2 [(comKey ['x'] ['c'], Val.com lateComment)]
     ['x'] (by decide)
     (by
       intro e he cm hcm
       simp only [List.mem_singleton] at he
       subst he
       injection hcm with h
       subst h
       exact ⟨by decide, by decide⟩)
     (comKey ['x'] ['c'], Val.com lateComment) (by decide) lateComment rfl⟩

end Blog
